import Mathlib

/-!
Verification of the memory-visualizer HTTP API server (`api-server.py`).

The handlers are shallowly embedded as pure Lean functions.  Strings are
Lean `String`s; the character-level Python operations (`str.strip`,
`str.split`, `str.join`, `str.startswith`, `str.title`) are modelled on
`List Char`.  A subprocess call is abstracted by a `SubprocOutcome` value
describing how `subprocess.run` would have ended (completion with exit
code / stdout / stderr, a `TimeoutExpired`, or another raised exception);
each handler returns, besides its HTTP response, the list of backend
invocations it performed, so that "no subprocess is started" is the
statement that this list is empty.  `json.loads` is modelled by a strict
recursive-descent parser (`jsonLoads`); the textual content of Python
exception messages that no theorem inspects (JSON parse diagnostics,
`KeyError`/`TypeError` texts) is abbreviated.
-/

set_option maxRecDepth 10000

namespace MemViz

/-- Whitespace characters removed by Python `str.strip()` (ASCII range). -/
def pyWsChars : List Char :=
  [' ', '\t', '\n', '\r', '\x0b', '\x0c']

/-- Membership in the Python whitespace set. -/
def isPyWs (c : Char) : Bool := pyWsChars.contains c

/-- Python `str.strip()` on a character list. -/
def pyStripL (l : List Char) : List Char :=
  ((l.dropWhile isPyWs).reverse.dropWhile isPyWs).reverse

/-- Python `str.strip()`. -/
def pyStripStr (s : String) : String := String.mk (pyStripL s.toList)

/-- Python `str.split(sep)` for a one-character separator. -/
def splitOnCharL (sep : Char) : List Char → List (List Char)
  | [] => [[]]
  | c :: cs =>
    match splitOnCharL sep cs with
    | [] => [[]]
    | p :: ps => if c == sep then [] :: p :: ps else (c :: p) :: ps

/-- Python `sep.join(parts)` for a one-character separator. -/
def joinWithCharL (sep : Char) : List (List Char) → List Char
  | [] => []
  | [t] => t
  | t :: ts => t ++ sep :: joinWithCharL sep ts

/-- Python `','.join(teams)`. -/
def pyJoinComma (ts : List String) : String :=
  String.mk (joinWithCharL ',' (ts.map String.toList))

/-- Python `s.startswith(p)` on character lists (first argument is `s`). -/
def pyStartswithL : List Char → List Char → Bool
  | _, [] => true
  | [], _ :: _ => false
  | c :: cs, p :: ps => c == p && pyStartswithL cs ps

/-- Python `s.endswith(suf)`. -/
def pyEndswith (s suf : String) : Bool :=
  pyStartswithL s.toList.reverse suf.toList.reverse

/-- One step of Python `str.title()`: upper-case a letter that follows a
non-letter, lower-case a letter that follows a letter. -/
def pyTitleAux : Bool → List Char → List Char
  | _, [] => []
  | prevAlpha, c :: cs =>
    (if c.isAlpha then (if prevAlpha then c.toLower else c.toUpper) else c)
      :: pyTitleAux c.isAlpha cs

/-- Python `str.title()` (ASCII behaviour). -/
def pyTitle (s : String) : String := String.mk (pyTitleAux false s.toList)

/-- JSON values as produced by `json.loads`.  A number keeps its integer
part, fractional digit string and exponent separately, so integers and
floats stay distinguishable without floating-point arithmetic. -/
inductive Json where
  | null
  | bool (b : Bool)
  | num (intPart : Int) (fracPart : String) (expPart : Int)
  | str (s : String)
  | arr (elems : List Json)
  | obj (fields : List (String × Json))

/-- Shorthand for an integer JSON number. -/
def Json.int (n : Int) : Json := Json.num n "" 0

/-- Fields of a JSON object (empty for non-objects). -/
def Json.fieldsOf : Json → List (String × Json)
  | .obj fs => fs
  | _ => []

/-- Python `dict.get`: first (and only, see `insertField`) binding of a key. -/
def lookupField (fs : List (String × Json)) (k : String) : Option Json :=
  match fs.find? (fun p => p.1 == k) with
  | some p => some p.2
  | none => none

/-- Insert a key into an object under Python `dict` semantics: a duplicate
key overwrites the stored value in place, otherwise the key is appended. -/
def insertField (fs : List (String × Json)) (k : String) (v : Json) :
    List (String × Json) :=
  if fs.any (fun p => p.1 == k) then
    fs.map (fun p => if p.1 == k then (k, v) else p)
  else fs ++ [(k, v)]

/-- Whitespace characters allowed between JSON tokens. -/
def jsonWsChars : List Char := [' ', '\t', '\n', '\r']

/-- Skip whitespace between JSON tokens. -/
def jsonSkipWs (cs : List Char) : List Char :=
  cs.dropWhile (fun c => jsonWsChars.contains c)

/-- Value of one hexadecimal digit (either case). -/
def hexVal (c : Char) : Option Nat :=
  List.indexOf? c.toLower "0123456789abcdef".toList

/-- The JSON short escape table, escape letter paired with its
character. -/
def escTable : List (Char × Char) :=
  [('"', '"'), ('\\', '\\'), ('/', '/'), ('b', '\x08'),
   ('f', '\x0c'), ('n', '\n'), ('r', '\r'), ('t', '\t')]

/-- Look an escape letter up in the table. -/
def escChar (c : Char) : Option Char :=
  (escTable.find? (fun p => p.1 == c)).map (fun p => p.2)

/-- Parse the body of a JSON string literal (after the opening quote),
returning the decoded characters and the remainder after the closing
quote.  Raw control characters are rejected, as by strict `json.loads`. -/
def parseStringChars : Nat → List Char → Option (List Char × List Char)
  | 0, _ => none
  | _ + 1, [] => none
  | fuel + 1, c :: cs =>
    if c == '"' then some ([], cs)
    else if c == '\\' then
      match cs with
      | 'u' :: h1 :: h2 :: h3 :: h4 :: rest =>
        match hexVal h1, hexVal h2, hexVal h3, hexVal h4 with
        | some a, some b, some c2, some d =>
          match parseStringChars fuel rest with
          | some (s, r) =>
            some (Char.ofNat (((a * 16 + b) * 16 + c2) * 16 + d) :: s, r)
          | none => none
        | _, _, _, _ => none
      | e :: rest =>
        match escChar e with
        | some ch =>
          match parseStringChars fuel rest with
          | some (s, r) => some (ch :: s, r)
          | none => none
        | none => none
      | [] => none
    else if c.toNat < 32 then none
    else
      match parseStringChars fuel cs with
      | some (s, r) => some (c :: s, r)
      | none => none

/-- Longest leading run of decimal digits. -/
def spanDigits (cs : List Char) : List Char × List Char :=
  (cs.takeWhile Char.isDigit, cs.dropWhile Char.isDigit)

/-- Numeric value of a digit string. -/
def digitsToNat (ds : List Char) : Nat :=
  ds.foldl (fun acc c => acc * 10 + (c.toNat - 48)) 0

/-- Integer part of a JSON number: `0`, or a nonzero digit followed by
digits (JSON forbids leading zeros). -/
def parseIntDigits : List Char → Option (List Char × List Char)
  | [] => none
  | c :: cs =>
    if c == '0' then some (['0'], cs)
    else if c.isDigit then
      some (c :: (spanDigits cs).1, (spanDigits cs).2)
    else none

/-- Exponent part of a JSON number, after the `e`. -/
def parseExp (m : Int) (frac : String) (cs : List Char) :
    Option (Json × List Char) :=
  let (sgn, cs1) :=
    match cs with
    | '+' :: rest => ((1 : Int), rest)
    | '-' :: rest => ((-1 : Int), rest)
    | _ => ((1 : Int), cs)
  let ds := (spanDigits cs1).1
  if ds.isEmpty then none
  else some (.num m frac (sgn * (digitsToNat ds : Int)), (spanDigits cs1).2)

/-- A JSON number: optional minus, integer part, optional fraction and
exponent. -/
def parseNumber (cs : List Char) : Option (Json × List Char) :=
  let (neg, cs1) :=
    match cs with
    | '-' :: rest => (true, rest)
    | _ => (false, cs)
  match parseIntDigits cs1 with
  | none => none
  | some (ds, r1) =>
    let m : Int := if neg then -(digitsToNat ds : Int) else (digitsToNat ds : Int)
    match r1 with
    | '.' :: r2 =>
      let fds := (spanDigits r2).1
      if fds.isEmpty then none
      else
        match (spanDigits r2).2 with
        | e :: r4 =>
          if e == 'e' || e == 'E' then parseExp m (String.mk fds) r4
          else some (.num m (String.mk fds) 0, e :: r4)
        | [] => some (.num m (String.mk fds) 0, [])
    | e :: r2 =>
      if e == 'e' || e == 'E' then parseExp m "" r2
      else some (.num m "" 0, r1)
    | [] => some (.num m "" 0, [])

mutual

/-- Parse one JSON value; `fuel` bounds the recursion. -/
def parseValue : Nat → List Char → Option (Json × List Char)
  | 0, _ => none
  | fuel + 1, cs =>
    match jsonSkipWs cs with
    | 'n' :: 'u' :: 'l' :: 'l' :: rest => some (.null, rest)
    | 't' :: 'r' :: 'u' :: 'e' :: rest => some (.bool true, rest)
    | 'f' :: 'a' :: 'l' :: 's' :: 'e' :: rest => some (.bool false, rest)
    | '"' :: rest =>
      match parseStringChars (rest.length + 1) rest with
      | some (s, r) => some (.str (String.mk s), r)
      | none => none
    | '[' :: rest => parseArrayRest fuel rest
    | '{' :: rest => parseObjRest fuel rest
    | cs2 => parseNumber cs2

/-- Parse the remainder of a JSON array, after the opening bracket. -/
def parseArrayRest : Nat → List Char → Option (Json × List Char)
  | 0, _ => none
  | fuel + 1, cs =>
    match jsonSkipWs cs with
    | ']' :: rest => some (.arr [], rest)
    | cs2 =>
      match parseValue fuel cs2 with
      | none => none
      | some (v, r) => parseArrayMore fuel [v] r

/-- Parse the remaining elements of a JSON array, after one element. -/
def parseArrayMore : Nat → List Json → List Char → Option (Json × List Char)
  | 0, _, _ => none
  | fuel + 1, acc, cs =>
    match jsonSkipWs cs with
    | ',' :: rest =>
      match parseValue fuel rest with
      | none => none
      | some (v, r) => parseArrayMore fuel (acc ++ [v]) r
    | ']' :: rest => some (.arr acc, rest)
    | _ => none

/-- Parse the remainder of a JSON object, after the opening brace. -/
def parseObjRest : Nat → List Char → Option (Json × List Char)
  | 0, _ => none
  | fuel + 1, cs =>
    match jsonSkipWs cs with
    | '}' :: rest => some (.obj [], rest)
    | '"' :: rest =>
      match parseStringChars (rest.length + 1) rest with
      | none => none
      | some (k, r1) =>
        match jsonSkipWs r1 with
        | ':' :: r2 =>
          match parseValue fuel r2 with
          | none => none
          | some (v, r3) => parseObjMore fuel (insertField [] (String.mk k) v) r3
        | _ => none
    | _ => none

/-- Parse the remaining members of a JSON object, after one member. -/
def parseObjMore : Nat → List (String × Json) → List Char →
    Option (Json × List Char)
  | 0, _, _ => none
  | fuel + 1, acc, cs =>
    match jsonSkipWs cs with
    | ',' :: rest =>
      match jsonSkipWs rest with
      | '"' :: r0 =>
        match parseStringChars (r0.length + 1) r0 with
        | none => none
        | some (k, r1) =>
          match jsonSkipWs r1 with
          | ':' :: r2 =>
            match parseValue fuel r2 with
            | none => none
            | some (v, r3) => parseObjMore fuel (insertField acc (String.mk k) v) r3
          | _ => none
      | _ => none
    | '}' :: rest => some (.obj acc, rest)
    | _ => none

end

/-- `json.loads`: parse one value, allow trailing whitespace only. -/
def jsonLoads (s : String) : Option Json :=
  match parseValue (s.toList.length * 2 + 2) s.toList with
  | some (j, rest) => if jsonSkipWs rest = [] then some j else none
  | none => none

/-! ### JSON extraction from subprocess stdout

`handle_database_query` and `handle_get_available_teams` both run
`result.stdout.strip().split('\n')` and scan forward for the first line
that is nonempty and does not start with a marker character. -/

/-- The marker characters of a log/status line (the list literal in
`api-server.py` lines 137 and 316). -/
def logMarkers : List Char := ['✓', '⚠', '[', ' ']

/-- A log/status line: empty, or first character among the markers
(negation of `line and not line[0] in ['✓', '⚠', '[', ' ']`). -/
def isLogLine : List Char → Bool
  | [] => true
  | c :: _ => logMarkers.contains c

/-- The scanning loop: first line that is not a log/status line. -/
def findJsonLineAux : List (List Char) → Option (List Char)
  | [] => none
  | l :: ls => if isLogLine l then findJsonLineAux ls else some l

/-- `result.stdout.strip().split('\n')`. -/
def stdoutLines (stdout : String) : List (List Char) :=
  splitOnCharL '\n' (pyStripL stdout.toList)

/-- The JSON candidate line extracted from subprocess stdout. -/
def findJsonLine (stdout : String) : Option (List Char) :=
  findJsonLineAux (stdoutLines stdout)

/-- Modelled from the spec: the extractor as claim C1 words it, splitting
the subprocess stdout itself (not its stripped form) into lines and taking
the first line that is not a log/status line.  Kept only to compare the
claim's algorithm with the code's `findJsonLine`. -/
def claimFindJsonLine (stdout : String) : Option (List Char) :=
  (splitOnCharL '\n' stdout.toList).find? (fun l => !(isLogLine l))

/-! ### Team selection parsing (`handle_get_current_teams`) -/

/-- Lines 81-82: remove every brace, split on commas, strip each segment,
drop blank segments. -/
def parseTeamsRaw (raw : String) : List String :=
  let cs := raw.toList.filter (fun c => !(c == '{' || c == '}'))
  let parts := splitOnCharL ',' cs
  ((parts.map pyStripL).filter (fun l => !l.isEmpty)).map String.mk

/-- `handle_get_current_teams` lines 76-87 as data: the returned team list
and raw string, from the `KNOWLEDGE_VIEW` environment value (`none` when
the variable is absent; `os.environ.get` then yields `'coding'`). -/
def currentTeams (env : Option String) : List String × String :=
  let teamsEnv := env.getD "coding"
  let ts := parseTeamsRaw teamsEnv
  (if ts.isEmpty then ["coding"] else ts, teamsEnv)

/-! ### HTTP-level data -/

/-- A JSON HTTP response: status code and body. -/
structure HttpResponse where
  status : Nat
  body : Json

/-- One subprocess invocation as constructed by a handler: the argv list
and the `timeout=` bound in seconds. -/
structure Invocation where
  args : List String
  timeoutSeconds : Nat
deriving DecidableEq

/-- How a `subprocess.run` call ended: completion with exit code, stdout
and stderr; a `subprocess.TimeoutExpired`; or another raised exception. -/
inductive SubprocOutcome where
  | completed (returncode : Int) (stdout : String) (stderr : String)
  | timedOut
  | raised (msg : String)
deriving DecidableEq

/-- Response and the backend invocations performed while producing it. -/
structure HandlerOut where
  response : HttpResponse
  invocations : List Invocation

/-! ### `handle_database_query` (lines 273-346) -/

/-- Error body for a missing query script (lines 280-283, also used by
`handle_get_available_teams` lines 108-111). -/
def backendMissingBody (scriptPath : String) : Json :=
  .obj [("error", .str "Database query backend not available"),
        ("message", .str ("db-query-cli.js not found at " ++ scriptPath))]

/-- Error body for stdout without a decodable JSON line (lines 326-330).
The `parseError` diagnostic text of the Python exception is abbreviated
to its leading phrase. -/
def dbMalformedBody (stdout : String) (parseErr : String) : Json :=
  .obj [("error", .str "Invalid JSON response from database backend"),
        ("output", .str stdout),
        ("parseError", .str parseErr)]

/-- `result.stderr.strip() if result.stderr else 'Unknown error'`. -/
def stderrOrUnknown (stderr : String) : String :=
  if stderr = "" then "Unknown error" else pyStripStr stderr

/-- `handle_database_query`: proxy one read query to the backend script.
The query-string-to-JSON encoding of lines 288-291 is abstracted as the
already-encoded `paramsJson` argument; `scriptExists` is whether
`os.path.exists(query_script)` holds and `outcome` how the subprocess
would end. -/
def handle_database_query (scriptPath : String) (scriptExists : Bool)
    (queryType : String) (paramsJson : String) (outcome : SubprocOutcome) :
    HandlerOut :=
  if !scriptExists then
    ⟨⟨503, backendMissingBody scriptPath⟩, []⟩
  else
    let inv : Invocation := ⟨["node", scriptPath, queryType, paramsJson], 10⟩
    match outcome with
    | .completed rc out err =>
      if rc = 0 then
        match findJsonLine out with
        | some l =>
          match jsonLoads (String.mk l) with
          | some j => ⟨⟨200, j⟩, [inv]⟩
          | none => ⟨⟨500, dbMalformedBody out "Expecting value"⟩, [inv]⟩
        | none => ⟨⟨500, dbMalformedBody out "No JSON found"⟩, [inv]⟩
      else
        ⟨⟨500, .obj [("error", .str "Database query failed"),
                     ("message", .str (stderrOrUnknown err))]⟩, [inv]⟩
    | .timedOut =>
      ⟨⟨504, .obj [("error", .str "Database query timed out"),
                   ("message", .str "Query took longer than 10 seconds")]⟩, [inv]⟩
    | .raised m =>
      ⟨⟨500, .obj [("error", .str "Internal server error"),
                   ("message", .str m)]⟩, [inv]⟩

/-! ### `handle_get_available_teams` (lines 101-181) -/

/-- Rendering of a JSON value inside a Python f-string (`str(x)`); the
renderings of composite values are abbreviated, no theorem depends on
them. -/
def pyStrOfJson : Json → String
  | .str s => s
  | .null => "None"
  | .bool true => "True"
  | .bool false => "False"
  | .num m f e =>
    toString m ++ (if f = "" then "" else "." ++ f)
      ++ (if e = 0 then "" else "e" ++ toString e)
  | .arr _ => "[...]"
  | .obj _ => "\x7b...\x7d"

/-- `teams_data.get('available', [])` followed by Python iteration: a list
iterates its elements; an empty string or empty dict iterates nothing; any
other value raises (`TypeError`) when iterated or indexed, caught by the
outer `except Exception`. -/
def availableEntries : Json → Except String (List Json)
  | .obj fs =>
    match lookupField fs "available" with
    | none => .ok []
    | some (.arr xs) => .ok xs
    | some (.str s) => if s = "" then .ok [] else .error "string indices must be integers"
    | some (.obj []) => .ok []
    | some (.obj (_ :: _)) => .error "string indices must be integers"
    | some _ => .error "object is not iterable"
  | _ => .error "no attribute get"

/-- Lines 148-155: build one record of the `available` response.  Fails
(as a raised exception) when `team['name']` is missing, or when the
default display name needs `team['name'].title()` on a non-string. -/
def transformTeam (t : Json) : Except String Json :=
  match t with
  | .obj fs =>
    match lookupField fs "name" with
    | none => .error "name"
    | some nv =>
      match
        (match lookupField fs "displayName" with
         | some dv => Except.ok dv
         | none =>
           match nv with
           | .str nm => Except.ok (Json.str (pyTitle nm))
           | _ => Except.error "no attribute title") with
      | .error m => .error m
      | .ok display =>
        .ok (.obj [("name", nv),
                   ("displayName", display),
                   ("description",
                     .str (pyStrOfJson display ++ " knowledge from GraphDB")),
                   ("entities", (lookupField fs "entityCount").getD (Json.int 0)),
                   ("lastActivity", (lookupField fs "lastActivity").getD .null)])
  | _ => .error "not subscriptable"

/-- Transform every team record, stopping at the first raised exception. -/
def transformTeams : List Json → Except String (List Json)
  | [] => .ok []
  | t :: ts =>
    match transformTeam t with
    | .error m => .error m
    | .ok j =>
      match transformTeams ts with
      | .error m => .error m
      | .ok js => .ok (j :: js)

/-- `handle_get_available_teams`: query the backend for the team list and
reshape it.  Parameters as in `handle_database_query`. -/
def handle_get_available_teams (scriptPath : String) (scriptExists : Bool)
    (outcome : SubprocOutcome) : HandlerOut :=
  if !scriptExists then
    ⟨⟨503, backendMissingBody scriptPath⟩, []⟩
  else
    let inv : Invocation := ⟨["node", scriptPath, "teams", "\x7b\x7d"], 10⟩
    match outcome with
    | .completed rc out err =>
      if rc = 0 then
        match findJsonLine out with
        | some l =>
          match jsonLoads (String.mk l) with
          | some j =>
            match
              (match availableEntries j with
               | .error m => Except.error m
               | .ok es => transformTeams es) with
            | .ok infos => ⟨⟨200, .obj [("available", .arr infos)]⟩, [inv]⟩
            | .error m =>
              ⟨⟨500, .obj [("error", .str "Internal server error"),
                           ("message", .str m)]⟩, [inv]⟩
          | none =>
            ⟨⟨500, .obj [("error", .str "Invalid JSON response from database backend"),
                         ("output", .str out)]⟩, [inv]⟩
        | none =>
          ⟨⟨500, .obj [("error", .str "Invalid JSON response from database backend"),
                       ("output", .str out)]⟩, [inv]⟩
      else
        ⟨⟨500, .obj [("error", .str "Failed to query teams from GraphDB"),
                     ("message", .str (stderrOrUnknown err))]⟩, [inv]⟩
    | .timedOut =>
      ⟨⟨504, .obj [("error", .str "Teams query timed out"),
                   ("message", .str "GraphDB query took longer than 10 seconds")]⟩, [inv]⟩
    | .raised m =>
      ⟨⟨500, .obj [("error", .str "Internal server error"),
                   ("message", .str m)]⟩, [inv]⟩

/-! ### `handle_set_teams` (lines 183-262) -/

/-- The process state `handle_set_teams` mutates: the `KNOWLEDGE_VIEW`
environment variable and whether `dist/memory.json` exists. -/
structure ServerState where
  knowledgeView : Option String
  distMemoryExists : Bool
deriving DecidableEq

/-- State, response and invocations of one `handle_set_teams` call. -/
structure SetTeamsOut where
  state : ServerState
  response : HttpResponse
  invocations : List Invocation

/-- `handle_set_teams` on an already-decoded request body.  `teams0` is
`data.get('teams', [])`; `cliExists` is `os.path.exists(vkb_cli)`;
`outcome` is how the reprocessing subprocess would end.  The environment
write (line 197) and the `dist/memory.json` deletion (lines 200-202)
happen before the CLI existence check and the subprocess call. -/
def handle_set_teams (st : ServerState) (cliPath : String) (cliExists : Bool)
    (teams0 : List String) (outcome : SubprocOutcome) : SetTeamsOut :=
  let teams := if teams0.isEmpty then ["coding"] else teams0
  let teamsStr := pyJoinComma teams
  let st1 : ServerState := ⟨some teamsStr, false⟩
  if !cliExists then
    ⟨st1, ⟨500, .obj [("success", .bool false),
                      ("error", .str ("VKB CLI not found at " ++ cliPath))]⟩, []⟩
  else
    let inv : Invocation := ⟨["node", cliPath, "data", "process"], 30⟩
    match outcome with
    | .completed rc _ err =>
      if rc = 0 then
        ⟨st1, ⟨200, .obj [("success", .bool true),
                          ("teams", .arr (teams.map Json.str)),
                          ("message", .str ("Switched to teams: " ++ teamsStr))]⟩,
          [inv]⟩
      else
        ⟨st1, ⟨500, .obj [("success", .bool false),
                          ("error", .str ("Data processing failed: "
                            ++ stderrOrUnknown err))]⟩, [inv]⟩
    | .timedOut =>
      ⟨st1, ⟨500, .obj [("success", .bool false),
                        ("error", .str "Data processing timed out after 30 seconds")]⟩,
        [inv]⟩
    | .raised m =>
      ⟨st1, ⟨500, .obj [("success", .bool false),
                        ("error", .str ("Subprocess error: " ++ m))]⟩, [inv]⟩

/-- `handle_get_current_teams` as an HTTP response (line 87). -/
def handle_get_current_teams (env : Option String) : HttpResponse :=
  ⟨200, .obj [("teams", .arr ((currentTeams env).1.map Json.str)),
              ("raw", .str (currentTeams env).2)]⟩

/-! ### `handle_knowledge_management_file` (lines 348-398)

Absolute filesystem paths are modelled as their segment lists; the
filesystem is taken symlink-free, so `os.path.realpath` is the lexical
resolution of `.` and `..` segments. -/

/-- Resolve `.`, `..` and empty segments against an accumulated stack. -/
def resolveSegsAux (acc : List String) : List String → List String
  | [] => acc
  | s :: rest =>
    if s = ".." then resolveSegsAux acc.dropLast rest
    else if s = "" || s = "." then resolveSegsAux acc rest
    else resolveSegsAux (acc ++ [s]) rest

/-- `os.path.realpath` on a symlink-free filesystem: lexical resolution of
an absolute path given as segments. -/
def resolveSegs (segs : List String) : List String :=
  resolveSegsAux [] segs

/-- Render resolved segments as the absolute path string
(`/seg1/seg2/...`; the root itself is `/`). -/
def renderPathL (segs : List String) : List Char :=
  if segs.isEmpty then ['/']
  else segs.foldl (fun acc s => acc ++ '/' :: s.toList) []

/-- Segment-level containment: the target is the root or lies below it
(the root's segments are a leading segment run of the target's).  This is
the property claim C5 attributes to the check, as opposed to the
string-prefix comparison the code performs. -/
def insideRootSegs (rootR target : List String) : Bool :=
  target.take rootR.length == rootR

/-- The request path after `lstrip('/')`, split on `/`. -/
def requestSegs (reqPath : String) : List String :=
  (splitOnCharL '/' (reqPath.toList.dropWhile (fun c => c == '/'))).map String.mk

/-- The canonical target: `os.path.realpath(os.path.join(coding_path,
relative_path))` as segments. -/
def kmTargetSegs (codingSegs : List String) (reqPath : String) : List String :=
  resolveSegs (codingSegs ++ requestSegs reqPath)

/-- Result of `handle_knowledge_management_file`: 403, 404, or the file at
the canonical path served with 200. -/
inductive KmOutcome where
  | forbidden
  | notFound
  | served (fullPath : String)
deriving DecidableEq

/-- `handle_knowledge_management_file`: containment check by
`full_path.startswith(realpath(coding_path))` on path strings (line 359),
then the `os.path.isfile` check.  `codingSegs` is the project root as
segments, `isFile` the filesystem's file-existence predicate. -/
def handle_knowledge_management_file (codingSegs : List String)
    (reqPath : String) (isFile : String → Bool) : KmOutcome :=
  let fullChars := renderPathL (kmTargetSegs codingSegs reqPath)
  let rootChars := renderPathL (resolveSegs codingSegs)
  if !(pyStartswithL fullChars rootChars) then .forbidden
  else if !(isFile (String.mk fullChars)) then .notFound
  else .served (String.mk fullChars)

/-! ### `handle_health_check` (lines 400-451) -/

/-- One entry of the export directory listing, with the values
`os.path.exists`, `os.path.getsize` and `os.path.getmtime` would report
for it. -/
structure FileEntry where
  name : String
  stillExists : Bool
  size : Nat
  mtime : Int
deriving DecidableEq

/-- Environment of one `handle_health_check` call.  `cpu` and `mem` are
the values `psutil` would report (as integers; no theorem computes with
them); `listing` is the result of `os.listdir` on the export directory,
or the raised exception's message. -/
structure HealthIn where
  psutilAvailable : Bool
  cpu : Int
  mem : Int
  port : Nat
  pid : Nat
  now : Int
  startTime : Int
  kbPath : String
  listing : Except String (List FileEntry)

/-- Lines 434-442: keep `.json` files that still exist, with size and
modification time. -/
def kbFilesOf (entries : List FileEntry) : List Json :=
  ((entries.filter (fun f => pyEndswith f.name ".json")).filter
      (fun f => f.stillExists)).map
    (fun f => .obj [("name", .str f.name),
                    ("size", Json.int f.size),
                    ("last_modified", Json.int f.mtime)])

/-- `handle_health_check`: always a 200 response; a failed directory
listing contributes a `warning` field and an empty file list instead of
failing the request. -/
def handle_health_check (i : HealthIn) : HttpResponse :=
  let sysObj : Json :=
    .obj [("cpu_percent", if i.psutilAvailable then Json.int i.cpu else Json.int 0),
          ("memory_percent", if i.psutilAvailable then Json.int i.mem else Json.int 0)]
  let base : List (String × Json) :=
    [("status", .str "healthy"),
     ("timestamp", Json.int i.now),
     ("server", .obj [("port", Json.int i.port),
                      ("pid", Json.int i.pid),
                      ("uptime", Json.int (i.now - i.startTime))]),
     ("system", sysObj)]
  match i.listing with
  | .ok entries =>
    ⟨200, .obj (base ++ [("knowledge_base",
        .obj [("path", .str i.kbPath), ("files", .arr (kbFilesOf entries))])])⟩
  | .error m =>
    ⟨200, .obj (base
        ++ [("warning", .str ("Could not check knowledge base files: " ++ m)),
            ("knowledge_base",
              .obj [("path", .str i.kbPath), ("files", .arr [])])])⟩

/-- A team name that the comma-joined raw representation can carry
losslessly: non-empty, free of commas and braces, and already stripped. -/
def TeamNameWf (t : String) : Prop :=
  t.toList ≠ [] ∧ ',' ∉ t.toList ∧ '{' ∉ t.toList ∧ '}' ∉ t.toList ∧
    pyStripL t.toList = t.toList

instance : DecidablePred TeamNameWf := fun t => by
  unfold TeamNameWf
  infer_instance

/-! ### Helper lemmas -/

theorem mk_toList (s : String) : String.mk s.toList = s := rfl

theorem findJsonLineAux_eq_find? (ls : List (List Char)) :
    findJsonLineAux ls = ls.find? (fun l => !(isLogLine l)) := by
  induction ls with
  | nil => rfl
  | cons l ls ih =>
    cases h : isLogLine l <;> simp [findJsonLineAux, List.find?, h, ih]

theorem splitOnCharL_ne_nil (sep : Char) (l : List Char) :
    splitOnCharL sep l ≠ [] := by
  induction l with
  | nil => simp [splitOnCharL]
  | cons c cs ih =>
    simp only [splitOnCharL]
    split
    · simp
    · split <;> simp

theorem splitOnCharL_single (sep : Char) (l : List Char) (h : sep ∉ l) :
    splitOnCharL sep l = [l] := by
  induction l with
  | nil => rfl
  | cons c cs ih =>
    simp only [List.mem_cons, not_or] at h
    have hc : ¬(c = sep) := fun e => h.1 e.symm
    simp only [splitOnCharL, ih h.2]
    simp [beq_iff_eq, hc]

theorem splitOnCharL_append (sep : Char) (a r : List Char) (h : sep ∉ a) :
    splitOnCharL sep (a ++ sep :: r) = a :: splitOnCharL sep r := by
  induction a with
  | nil =>
    simp only [List.nil_append, splitOnCharL]
    cases hr : splitOnCharL sep r with
    | nil => exact absurd hr (splitOnCharL_ne_nil sep r)
    | cons p ps => simp
  | cons c cs ih =>
    simp only [List.mem_cons, not_or] at h
    have hc : ¬(c = sep) := fun e => h.1 e.symm
    have step : splitOnCharL sep ((c :: cs) ++ sep :: r)
        = match splitOnCharL sep (cs ++ sep :: r) with
          | [] => [[]]
          | p :: ps => if c == sep then [] :: p :: ps else (c :: p) :: ps := rfl
    rw [step, ih h.2]
    simp [beq_iff_eq, hc]

theorem joinWithCharL_cons_cons (sep : Char) (t t2 : List Char)
    (ts : List (List Char)) :
    joinWithCharL sep (t :: t2 :: ts) = t ++ sep :: joinWithCharL sep (t2 :: ts) :=
  rfl

theorem splitOnCharL_joinWithCharL (sep : Char) (ts : List (List Char))
    (hne : ts ≠ []) (h : ∀ t ∈ ts, sep ∉ t) :
    splitOnCharL sep (joinWithCharL sep ts) = ts := by
  induction ts with
  | nil => exact absurd rfl hne
  | cons t ts ih =>
    cases ts with
    | nil => exact splitOnCharL_single sep t (h t (by simp))
    | cons t2 ts2 =>
      rw [joinWithCharL_cons_cons, splitOnCharL_append sep t _ (h t (by simp))]
      rw [ih (by simp) (fun x hx => h x (List.mem_cons_of_mem _ hx))]

theorem mem_joinWithCharL (sep : Char) (ts : List (List Char)) (c : Char)
    (hc : c ∈ joinWithCharL sep ts) : c = sep ∨ ∃ t ∈ ts, c ∈ t := by
  induction ts with
  | nil => simp [joinWithCharL] at hc
  | cons t ts ih =>
    cases ts with
    | nil =>
      exact Or.inr ⟨t, by simp, by simpa [joinWithCharL] using hc⟩
    | cons t2 ts2 =>
      rw [joinWithCharL_cons_cons] at hc
      rcases List.mem_append.mp hc with h1 | h2
      · exact Or.inr ⟨t, by simp, h1⟩
      · rcases List.mem_cons.mp h2 with h3 | h4
        · exact Or.inl h3
        · rcases ih h4 with h5 | ⟨u, hu, hcu⟩
          · exact Or.inl h5
          · exact Or.inr ⟨u, List.mem_cons_of_mem _ hu, hcu⟩

theorem toList_pyJoinComma (ts : List String) :
    (pyJoinComma ts).toList = joinWithCharL ',' (ts.map String.toList) := rfl

theorem parseTeamsRaw_join (ts : List String) (hne : ts ≠ [])
    (h : ∀ t ∈ ts, TeamNameWf t) :
    parseTeamsRaw (pyJoinComma ts) = ts := by
  have hmapne : ts.map String.toList ≠ [] := by simpa using hne
  have hnm : ∀ l ∈ ts.map String.toList, ',' ∉ l := by
    intro l hl
    rcases List.mem_map.mp hl with ⟨t, ht, rfl⟩
    exact (h t ht).2.1
  have hfilter : (pyJoinComma ts).toList.filter (fun c => !(c == '{' || c == '}'))
      = joinWithCharL ',' (ts.map String.toList) := by
    rw [toList_pyJoinComma]
    apply List.filter_eq_self.mpr
    intro c hc
    rcases mem_joinWithCharL ',' _ c hc with rfl | ⟨l, hl, hcl⟩
    · simp
    · rcases List.mem_map.mp hl with ⟨t, ht, rfl⟩
      have h2 := h t ht
      have hob : ¬(c = '{') := fun e => h2.2.2.1 (e ▸ hcl)
      have hcb : ¬(c = '}') := fun e => h2.2.2.2.1 (e ▸ hcl)
      simp [beq_iff_eq, hob, hcb]
  simp only [parseTeamsRaw]
  rw [hfilter, splitOnCharL_joinWithCharL ',' _ hmapne hnm]
  have hstrip : (ts.map String.toList).map pyStripL = ts.map String.toList := by
    rw [List.map_map]
    exact List.map_congr_left (fun t ht => (h t ht).2.2.2.2)
  rw [hstrip]
  have hfil2 : (ts.map String.toList).filter (fun l => !l.isEmpty)
      = ts.map String.toList := by
    apply List.filter_eq_self.mpr
    intro l hl
    rcases List.mem_map.mp hl with ⟨t, ht, rfl⟩
    simpa [List.isEmpty_iff] using (h t ht).1
  rw [hfil2, List.map_map]
  have : ts.map (String.mk ∘ String.toList) = ts.map id :=
    List.map_congr_left (fun t _ => mk_toList t)
  simpa using this

theorem set_teams_state (st : ServerState) (cli : String) (cliExists : Bool)
    (ts : List String) (outcome : SubprocOutcome) :
    (handle_set_teams st cli cliExists ts outcome).state
      = ⟨some (pyJoinComma (if ts.isEmpty then ["coding"] else ts)), false⟩ := by
  cases cliExists with
  | false => rfl
  | true =>
    cases outcome with
    | completed rc out err =>
      by_cases h : rc = 0 <;> simp [handle_set_teams, h]
    | timedOut => rfl
    | raised m => rfl

theorem renderPathL_acc (l : List String) (acc : List Char) :
    l.foldl (fun a s => a ++ '/' :: s.toList) acc
      = acc ++ l.foldl (fun a s => a ++ '/' :: s.toList) [] := by
  induction l generalizing acc with
  | nil => simp
  | cons s l ih =>
    simp only [List.foldl_cons, List.nil_append]
    rw [ih (acc ++ '/' :: s.toList), ih ('/' :: s.toList)]
    simp

theorem pyStartswithL_append (p q : List Char) :
    pyStartswithL (p ++ q) p = true := by
  induction p with
  | nil => cases q <;> rfl
  | cons c cs ih => simpa [pyStartswithL] using ih

theorem inside_implies_startswith (rootR target : List String)
    (h : insideRootSegs rootR target = true) :
    pyStartswithL (renderPathL target) (renderPathL rootR) = true := by
  have htake : target.take rootR.length = rootR := by
    simpa [insideRootSegs, beq_iff_eq] using h
  have hsplit : target = rootR ++ target.drop rootR.length := by
    conv_lhs => rw [← List.take_append_drop rootR.length target, htake]
  cases hr : rootR with
  | nil =>
    cases ht : target with
    | nil => rfl
    | cons s l =>
      simp only [renderPathL, List.isEmpty_cons, if_neg]
      rw [List.foldl_cons, renderPathL_acc]
      simp [pyStartswithL]
  | cons r0 rs =>
    subst hr
    rw [hsplit]
    cases hd : target.drop (r0 :: rs).length with
    | nil => simpa using pyStartswithL_append (renderPathL (r0 :: rs)) []
    | cons d0 ds =>
      simp only [renderPathL, List.isEmpty_cons, List.append_eq, if_neg]
      rw [List.foldl_append, renderPathL_acc (d0 :: ds)]
      simp [pyStartswithL_append]

/-! ### Claim theorems -/

/-- C1 (amended): the backend-proxy JSON extractor splits the
whitespace-stripped subprocess stdout into lines, scans forward, treats a
line as a log/status line iff it is empty or its first character is one
of `✓`, `⚠`, `[`, space, takes the first non-log line as candidate, and
decodes it as JSON; for the three-line stdout of log line, check-mark
line and JSON line (a:1), the database-query handler returns the decoded
object with status 200. -/
theorem extractor_skips_marker_lines :
    (∀ stdout : String,
      findJsonLine stdout
        = (splitOnCharL '\n' (pyStripL stdout.toList)).find? (fun l => !(isLogLine l)))
    ∧ isLogLine [] = true
    ∧ (∀ (c : Char) (cs : List Char),
        isLogLine (c :: cs) = true ↔ (c = '✓' ∨ c = '⚠' ∨ c = '[' ∨ c = ' '))
    ∧ (∀ sp qt pj out err l j, findJsonLine out = some l →
        jsonLoads (String.mk l) = some j →
        (handle_database_query sp true qt pj (.completed 0 out err)).response
          = ⟨200, j⟩)
    ∧ (handle_database_query "q" true "stats" "\x7b\x7d"
        (.completed 0 "[info] starting\n✓ ready\n\x7b\"a\":1\x7d\n" "")).response
        = ⟨200, Json.obj [("a", Json.int 1)]⟩ := by
  refine ⟨fun s => findJsonLineAux_eq_find? _, rfl, fun c cs => ?_,
    fun sp qt pj out err l j h1 h2 => ?_, rfl⟩
  · simp [isLogLine, logMarkers]
  · simp [handle_database_query, h1, h2]

/-- C1 witness: the amended extractor description, instantiated. -/
theorem extractor_skips_marker_lines_witness :
    findJsonLine "✓ ok\nz"
      = (splitOnCharL '\n' (pyStripL ("✓ ok\nz").toList)).find? (fun l => !(isLogLine l))
    ∧ (isLogLine ('[' :: ['i']) = true ↔
        ('[' = '✓' ∨ '[' = '⚠' ∨ '[' = '[' ∨ '[' = ' '))
    ∧ (handle_database_query "q" true "stats" "\x7b\x7d"
        (.completed 0 "7" "")).response = ⟨200, Json.int 7⟩ :=
  ⟨extractor_skips_marker_lines.1 "✓ ok\nz",
   extractor_skips_marker_lines.2.2.1 '[' ['i'],
   extractor_skips_marker_lines.2.2.2.1 "q" "stats" "\x7b\x7d" "7" "" ['7']
     (Json.int 7) rfl rfl⟩

/-- C1 counterexample: the code strips the whole stdout before splitting,
the claim's algorithm does not.  On a stdout whose first line is the
space-indented `x` and whose second line is the JSON object (a:1), the claim's
scan skips the space-initial first line and returns the JSON object, but
the code turns that line into the candidate `"x"`, fails to decode it,
and answers 500. -/
theorem extractor_strip_divergence :
    findJsonLine "  x\n\x7b\"a\":1\x7d" = some ['x']
    ∧ claimFindJsonLine "  x\n\x7b\"a\":1\x7d" = some ("\x7b\"a\":1\x7d".toList)
    ∧ (handle_database_query "q" true "stats" "\x7b\x7d"
        (.completed 0 "  x\n\x7b\"a\":1\x7d" "")).response.status = 500 :=
  ⟨rfl, rfl, rfl⟩

/-- C2 (amended): a timed-out backend invocation is reported as HTTP 504
on the read-query routes (`handle_database_query` with its 10-second
bound, `handle_get_available_teams`), but the 30-second-bounded mutating
`POST /api/teams` reprocess reports its timeout as HTTP 500. -/
theorem timeout_status_codes :
    (∀ sp qt pj, (handle_database_query sp true qt pj .timedOut).response.status = 504)
    ∧ (∀ sp qt pj, (handle_database_query sp true qt pj .timedOut).invocations
        = [⟨["node", sp, qt, pj], 10⟩])
    ∧ (∀ sp, (handle_get_available_teams sp true .timedOut).response.status = 504)
    ∧ (∀ st cli ts, (handle_set_teams st cli true ts .timedOut).response.status = 500)
    ∧ (∀ st cli ts, (handle_set_teams st cli true ts .timedOut).response.body
        = Json.obj [("success", .bool false),
                    ("error", .str "Data processing timed out after 30 seconds")])
    ∧ (∀ st cli ts, (handle_set_teams st cli true ts .timedOut).invocations
        = [⟨["node", cli, "data", "process"], 30⟩]) :=
  ⟨fun _ _ _ => rfl, fun _ _ _ => rfl, fun _ => rfl,
   fun _ _ _ => rfl, fun _ _ _ => rfl, fun _ _ _ => rfl⟩

/-- C2 counterexample: a timed-out `POST /api/teams` reprocess answers
500, not 504 as the claim states for every proxied route. -/
theorem set_teams_timeout_not_504 :
    (handle_set_teams ⟨none, true⟩ "/c/bin/vkb-cli.js" true ["research"]
      .timedOut).response.status = 500
    ∧ (handle_set_teams ⟨none, true⟩ "/c/bin/vkb-cli.js" true ["research"]
      .timedOut).response.status ≠ 504 :=
  ⟨rfl, by decide⟩

/-- C3 (amended): for every non-empty list of team names that are
non-blank, comma-free, brace-free and already stripped, `set` stores the
comma-join of the names and a following `get` returns exactly the same
list in the same order with the joined string as `raw`. -/
theorem set_get_round_trip (st : ServerState) (cli : String) (cliExists : Bool)
    (outcome : SubprocOutcome) (ts : List String) (hne : ts ≠ [])
    (hwf : ∀ t ∈ ts, TeamNameWf t) :
    (handle_set_teams st cli cliExists ts outcome).state.knowledgeView
        = some (pyJoinComma ts)
    ∧ handle_get_current_teams
        (handle_set_teams st cli cliExists ts outcome).state.knowledgeView
        = ⟨200, .obj [("teams", .arr (ts.map Json.str)),
                      ("raw", .str (pyJoinComma ts))]⟩ := by
  have hempty : ts.isEmpty = false := by simpa [List.isEmpty_iff] using hne
  have hstate := set_teams_state st cli cliExists ts outcome
  rw [hempty] at hstate
  simp only [if_neg Bool.false_ne_true] at hstate
  refine ⟨by rw [hstate], ?_⟩
  rw [hstate]
  show handle_get_current_teams (some (pyJoinComma ts)) = _
  unfold handle_get_current_teams currentTeams
  simp only [Option.getD_some, parseTeamsRaw_join ts hne hwf, hempty]
  rfl

/-- C3 witness: round trip at a concrete two-element team list. -/
theorem set_get_round_trip_witness :
    (["research", "coding"] ≠ ([] : List String))
    ∧ (∀ t ∈ ["research", "coding"], TeamNameWf t)
    ∧ handle_get_current_teams
        (handle_set_teams ⟨none, true⟩ "cli" true ["research", "coding"]
          (.completed 0 "" "")).state.knowledgeView
        = ⟨200, .obj [("teams", .arr [Json.str "research", Json.str "coding"]),
                      ("raw", .str "research,coding")]⟩ := by
  refine ⟨by decide, by decide, ?_⟩
  exact (set_get_round_trip ⟨none, true⟩ "cli" true (.completed 0 "" "")
    ["research", "coding"] (by decide) (by decide)).2

/-- C3 counterexample: a team name containing a comma does not round
trip: `set(["a,b"])` stores raw `"a,b"`, and `get` then returns the two
teams `["a", "b"]`, not `["a,b"]`. -/
theorem round_trip_fails_on_comma :
    (handle_set_teams ⟨none, true⟩ "cli" true ["a,b"]
      (.completed 0 "" "")).state.knowledgeView = some "a,b"
    ∧ (currentTeams (some "a,b")).1 = ["a", "b"]
    ∧ ["a", "b"] ≠ ["a,b"] :=
  ⟨rfl, rfl, by decide⟩

/-- C4: the team selection read by any handler is never empty: `get`
substitutes `["coding"]` whenever the stored raw value is absent or has
no non-blank segment, and `set` with an empty list is the same call as
`set(["coding"])`, state, response and invocations included. -/
theorem team_selection_never_empty :
    (∀ env : Option String, (currentTeams env).1 ≠ [])
    ∧ (∀ st cli cliExists outcome,
        handle_set_teams st cli cliExists [] outcome
          = handle_set_teams st cli cliExists ["coding"] outcome)
    ∧ (∀ raw, parseTeamsRaw raw = [] → currentTeams (some raw) = (["coding"], raw))
    ∧ currentTeams none = (["coding"], "coding") := by
  refine ⟨fun env => ?_, fun st cli cliE o => rfl, fun raw h => ?_, rfl⟩
  · unfold currentTeams
    cases h : (parseTeamsRaw (env.getD "coding")).isEmpty with
    | true => simp [h]
    | false =>
      have hne : parseTeamsRaw (env.getD "coding") ≠ [] := by
        simpa [List.isEmpty_iff] using h
      simp [h, hne]
  · have h2 : (parseTeamsRaw raw).isEmpty = true := by simp [h]
    unfold currentTeams
    simp [h2]

/-- C4 witness: a raw value with only blank segments yields the default
selection. -/
theorem team_selection_never_empty_witness :
    parseTeamsRaw " , " = [] ∧ currentTeams (some " , ") = (["coding"], " , ") :=
  ⟨rfl, team_selection_never_empty.2.2.1 " , " rfl⟩

/-- C5 (amended): the containment check of the knowledge-management file
route compares the canonical absolute path strings by string prefix: the
handler answers 403 exactly when the target's canonical path string does
not start with the root's canonical path string; a target below the root
always passes the check, and `/knowledge-management/../../etc/passwd` is
rejected with 403.  (A sibling directory whose name extends the root's
name also passes, although it is outside the root — see the
counterexample.) -/
theorem traversal_check_compares_path_strings (codingSegs : List String)
    (reqPath : String) (isFile : String → Bool) :
    (handle_knowledge_management_file codingSegs reqPath isFile = .forbidden
      ↔ pyStartswithL (renderPathL (kmTargetSegs codingSegs reqPath))
          (renderPathL (resolveSegs codingSegs)) = false)
    ∧ (insideRootSegs (resolveSegs codingSegs) (kmTargetSegs codingSegs reqPath) = true
        → handle_knowledge_management_file codingSegs reqPath isFile ≠ .forbidden)
    ∧ handle_knowledge_management_file ["home", "u", "coding"]
        "/knowledge-management/../../etc/passwd" isFile = .forbidden := by
  refine ⟨?_, fun hin => ?_, rfl⟩
  · unfold handle_knowledge_management_file
    cases hchk : pyStartswithL (renderPathL (kmTargetSegs codingSegs reqPath))
        (renderPathL (resolveSegs codingSegs)) with
    | false => simp [hchk]
    | true =>
      simp only [hchk, Bool.not_true, Bool.false_eq_true, if_false]
      cases isFile (String.mk (renderPathL (kmTargetSegs codingSegs reqPath))) <;>
        simp
  · have hpass := inside_implies_startswith _ _ hin
    unfold handle_knowledge_management_file
    simp only [hpass, Bool.not_true, Bool.false_eq_true, if_false]
    cases isFile (String.mk (renderPathL (kmTargetSegs codingSegs reqPath))) <;>
      simp

/-- C5 witness: a path below the root passes the containment check. -/
theorem traversal_check_compares_path_strings_witness :
    insideRootSegs (resolveSegs ["home", "u", "coding"])
        (kmTargetSegs ["home", "u", "coding"] "/knowledge-management/README.md") = true
    ∧ handle_knowledge_management_file ["home", "u", "coding"]
        "/knowledge-management/README.md" (fun _ => true) ≠ KmOutcome.forbidden
    ∧ handle_knowledge_management_file ["home", "u", "coding"]
        "/knowledge-management/../../etc/passwd" (fun _ => true)
        = KmOutcome.forbidden :=
  ⟨by decide,
   (traversal_check_compares_path_strings ["home", "u", "coding"]
     "/knowledge-management/README.md" (fun _ => true)).2.1 (by decide),
   (traversal_check_compares_path_strings ["home", "u", "coding"]
     "/knowledge-management/../../etc/passwd" (fun _ => true)).2.2⟩

/-- C5 counterexample: the string-prefix comparison admits a sibling of
the root: with root `/home/u/coding`, the request
`/knowledge-management/../../coding-backup/x` resolves to
`/home/u/coding-backup/x`, which lies outside the root's segment tree,
yet the handler serves it instead of answering 403. -/
theorem traversal_sibling_bypass :
    insideRootSegs (resolveSegs ["home", "u", "coding"])
      (kmTargetSegs ["home", "u", "coding"]
        "/knowledge-management/../../coding-backup/x") = false
    ∧ handle_knowledge_management_file ["home", "u", "coding"]
        "/knowledge-management/../../coding-backup/x" (fun _ => true)
        = KmOutcome.served "/home/u/coding-backup/x" :=
  ⟨by decide, rfl⟩

/-- C6 (amended): when the backend script is missing, every read-query
handler short-circuits with a 503 JSON error and starts no subprocess;
`POST /api/teams` likewise starts no subprocess but answers 500, not
503, when its CLI is missing. -/
theorem missing_backend_short_circuit :
    (∀ sp qt pj o, (handle_database_query sp false qt pj o).invocations = []
      ∧ (handle_database_query sp false qt pj o).response
          = ⟨503, backendMissingBody sp⟩)
    ∧ (∀ sp o, (handle_get_available_teams sp false o).invocations = []
      ∧ (handle_get_available_teams sp false o).response
          = ⟨503, backendMissingBody sp⟩)
    ∧ (∀ st cli ts o, (handle_set_teams st cli false ts o).invocations = []
      ∧ (handle_set_teams st cli false ts o).response.status = 500) :=
  ⟨fun _ _ _ _ => ⟨rfl, rfl⟩, fun _ _ => ⟨rfl, rfl⟩, fun _ _ _ _ => ⟨rfl, rfl⟩⟩

/-- C6 counterexample: `POST /api/teams` with a missing CLI answers 500
(with `success: false`), not the service-unavailable 503 the claim
states; no subprocess is started. -/
theorem set_teams_missing_cli_not_503 :
    (handle_set_teams ⟨none, true⟩ "/c/bin/vkb-cli.js" false ["research"]
      (.completed 0 "" "")).response.status = 500
    ∧ (handle_set_teams ⟨none, true⟩ "/c/bin/vkb-cli.js" false ["research"]
      (.completed 0 "" "")).response.status ≠ 503
    ∧ (handle_set_teams ⟨none, true⟩ "/c/bin/vkb-cli.js" false ["research"]
      (.completed 0 "" "")).invocations = [] :=
  ⟨rfl, by decide, rfl⟩

/-- C7: on zero exit with no decodable JSON line the proxies answer a
structured 500 carrying the raw stdout (no exception escapes: the
handlers are total functions into `HandlerOut`); on non-zero exit they
answer 500 carrying the stripped stderr, or the literal
`"Unknown error"` when stderr is empty. -/
theorem malformed_and_nonzero_reporting :
    (∀ sp qt pj out err, findJsonLine out = none →
      (handle_database_query sp true qt pj (.completed 0 out err)).response
        = ⟨500, dbMalformedBody out "No JSON found"⟩)
    ∧ (∀ sp qt pj out err l, findJsonLine out = some l →
        jsonLoads (String.mk l) = none →
      (handle_database_query sp true qt pj (.completed 0 out err)).response
        = ⟨500, dbMalformedBody out "Expecting value"⟩)
    ∧ (∀ sp out err, findJsonLine out = none →
      (handle_get_available_teams sp true (.completed 0 out err)).response
        = ⟨500, .obj [("error", .str "Invalid JSON response from database backend"),
                      ("output", .str out)]⟩)
    ∧ (∀ sp out err l, findJsonLine out = some l →
        jsonLoads (String.mk l) = none →
      (handle_get_available_teams sp true (.completed 0 out err)).response
        = ⟨500, .obj [("error", .str "Invalid JSON response from database backend"),
                      ("output", .str out)]⟩)
    ∧ (∀ sp qt pj out err rc, rc ≠ 0 →
      (handle_database_query sp true qt pj (.completed rc out err)).response
        = ⟨500, .obj [("error", .str "Database query failed"),
                      ("message", .str (stderrOrUnknown err))]⟩)
    ∧ (∀ sp out err rc, rc ≠ 0 →
      (handle_get_available_teams sp true (.completed rc out err)).response
        = ⟨500, .obj [("error", .str "Failed to query teams from GraphDB"),
                      ("message", .str (stderrOrUnknown err))]⟩)
    ∧ (∀ err, stderrOrUnknown err
        = if err = "" then "Unknown error" else pyStripStr err) := by
  refine ⟨fun sp qt pj out err h => ?_, fun sp qt pj out err l h1 h2 => ?_,
    fun sp out err h => ?_, fun sp out err l h1 h2 => ?_,
    fun sp qt pj out err rc h => ?_, fun sp out err rc h => ?_, fun err => rfl⟩
  · simp [handle_database_query, h]
  · simp [handle_database_query, h1, h2]
  · simp [handle_get_available_teams, h]
  · simp [handle_get_available_teams, h1, h2]
  · simp [handle_database_query, h]
  · simp [handle_get_available_teams, h]

/-- C7 witness: concrete malformed-output and non-zero-exit calls. -/
theorem malformed_and_nonzero_reporting_witness :
    (handle_database_query "q" true "stats" "\x7b\x7d"
      (.completed 0 "✓ done" "")).response
      = ⟨500, dbMalformedBody "✓ done" "No JSON found"⟩
    ∧ (handle_database_query "q" true "stats" "\x7b\x7d"
      (.completed 1 "" "")).response
      = ⟨500, .obj [("error", .str "Database query failed"),
                    ("message", .str "Unknown error")]⟩
    ∧ (handle_get_available_teams "q" true (.completed 0 "notjson" "")).response
      = ⟨500, .obj [("error", .str "Invalid JSON response from database backend"),
                    ("output", .str "notjson")]⟩ :=
  ⟨malformed_and_nonzero_reporting.1 "q" "stats" "\x7b\x7d" "✓ done" "" rfl,
   malformed_and_nonzero_reporting.2.2.2.2.1 "q" "stats" "\x7b\x7d" "" "" 1
     (by decide),
   malformed_and_nonzero_reporting.2.2.2.1 "q" "notjson" "" ['n', 'o', 't', 'j', 's', 'o', 'n']
     rfl rfl⟩

/-- C8: every health-check request answers status 200; without `psutil`
the cpu and memory percentages are reported as 0; a failed export
directory listing becomes a `warning` field while the request still
succeeds. -/
theorem health_check_always_200 (i : HealthIn) :
    (handle_health_check i).status = 200
    ∧ (i.psutilAvailable = false →
        lookupField (Json.fieldsOf (handle_health_check i).body) "system"
          = some (.obj [("cpu_percent", Json.int 0),
                        ("memory_percent", Json.int 0)]))
    ∧ (∀ m, i.listing = Except.error m →
        ("warning", Json.str ("Could not check knowledge base files: " ++ m))
          ∈ Json.fieldsOf (handle_health_check i).body) := by
  obtain ⟨ps, cpu, mem, port, pid, now, stt, kb, listing⟩ := i
  refine ⟨?_, ?_, ?_⟩
  · cases listing <;> rfl
  · intro hps
    subst hps
    cases listing <;> rfl
  · intro m hm
    cases listing with
    | ok es => exact absurd hm (by simp)
    | error m2 =>
      injection hm with hmm
      subst hmm
      simp [handle_health_check, Json.fieldsOf]

/-- C8 witness: a concrete call with `psutil` missing and an unlistable
export directory still answers 200 with zeroed metrics and a warning. -/
theorem health_check_always_200_witness :
    (handle_health_check
      ⟨false, 0, 0, 8080, 41, 100, 90, "/kb", Except.error "denied"⟩).status = 200
    ∧ lookupField (Json.fieldsOf (handle_health_check
        ⟨false, 0, 0, 8080, 41, 100, 90, "/kb", Except.error "denied"⟩).body) "system"
      = some (.obj [("cpu_percent", Json.int 0), ("memory_percent", Json.int 0)])
    ∧ ("warning", Json.str "Could not check knowledge base files: denied")
        ∈ Json.fieldsOf (handle_health_check
          ⟨false, 0, 0, 8080, 41, 100, 90, "/kb", Except.error "denied"⟩).body := by
  have h := health_check_always_200
    ⟨false, 0, 0, 8080, 41, 100, 90, "/kb", Except.error "denied"⟩
  exact ⟨h.1, h.2.1 rfl, h.2.2 "denied" rfl⟩

/-- C9: `handle_set_teams` mutates before it reprocesses: whenever the
reprocess step fails (the response is not a 200), the stored
`KNOWLEDGE_VIEW` already equals the comma-join of the requested teams
and `dist/memory.json` remains deleted. -/
theorem set_teams_not_atomic (st : ServerState) (cli : String)
    (ts : List String) (outcome : SubprocOutcome) (hne : ts ≠ [])
    (hfail : (handle_set_teams st cli true ts outcome).response.status ≠ 200) :
    (handle_set_teams st cli true ts outcome).state.knowledgeView
        = some (pyJoinComma ts)
    ∧ (handle_set_teams st cli true ts outcome).state.distMemoryExists = false := by
  have hempty : ts.isEmpty = false := by simpa [List.isEmpty_iff] using hne
  have h := set_teams_state st cli true ts outcome
  rw [hempty] at h
  simp only [if_neg Bool.false_ne_true] at h
  exact ⟨by rw [h], by rw [h]⟩

/-- C9 witness: after a timed-out reprocess the failure response carries
status 500 while the new selection is already stored and the cached
artifact deleted. -/
theorem set_teams_not_atomic_witness :
    (handle_set_teams ⟨some "coding", true⟩ "cli" true ["research"]
      .timedOut).response.status ≠ 200
    ∧ (handle_set_teams ⟨some "coding", true⟩ "cli" true ["research"]
      .timedOut).state.knowledgeView = some "research"
    ∧ (handle_set_teams ⟨some "coding", true⟩ "cli" true ["research"]
      .timedOut).state.distMemoryExists = false := by
  have h := set_teams_not_atomic ⟨some "coding", true⟩ "cli" ["research"]
    .timedOut (by decide) (by decide)
  exact ⟨by decide, h.1, h.2⟩

/-- C10: `get` normalizes the stored raw selection — deletes every brace,
splits on commas, strips each segment, drops blank segments — and returns
the raw string unchanged; a stored brace-wrapped `a, b` yields teams
`["a", "b"]` with the stored string unchanged as `raw`. -/
theorem current_teams_normalization :
    (∀ raw, parseTeamsRaw raw ≠ [] →
      currentTeams (some raw) = (parseTeamsRaw raw, raw))
    ∧ (∀ raw, (currentTeams (some raw)).2 = raw)
    ∧ currentTeams (some "\x7ba, b\x7d") = (["a", "b"], "\x7ba, b\x7d")
    ∧ handle_get_current_teams (some "\x7ba, b\x7d")
        = ⟨200, .obj [("teams", .arr [Json.str "a", Json.str "b"]),
                      ("raw", .str "\x7ba, b\x7d")]⟩ := by
  refine ⟨fun raw h => ?_, fun raw => rfl, rfl, rfl⟩
  have h2 : (parseTeamsRaw raw).isEmpty = false := by
    simpa [List.isEmpty_iff] using h
  unfold currentTeams
  simp [h2]

/-- C10 witness: normalization at a concrete stored value. -/
theorem current_teams_normalization_witness :
    parseTeamsRaw "x" ≠ [] ∧ currentTeams (some "x") = (parseTeamsRaw "x", "x") :=
  ⟨by decide, current_teams_normalization.1 "x" (by decide)⟩

end MemViz
